import Mathlib

/-!
Shallow embedding of the SprinklerApp backend (src/backend/sprinkler_service.py):
the zone-timer runtime, rain lock, schedule model and schedule execution.
Pure helpers model the Python library functions the source relies on
(str.split, int(), list indexing with negative wraparound, dict update).
-/

namespace Sprinkler

/-! ## Python primitives -/

/-- Python list indexing l[i]: nonnegative indices are positional, negative
indices wrap from the end, out-of-range raises (modelled as none). -/
def pyIndex {α : Type} (l : List α) (i : Int) : Option α :=
  if 0 ≤ i then l.get? i.toNat
  else if -(l.length : Int) ≤ i then l.get? (i + l.length).toNat
  else none

/-- Whitespace characters stripped by Python str.strip (ASCII subset). -/
def isPySpace (c : Char) : Bool :=
  c == ' ' || c == '\t' || c == '\n' || c == '\r' || c == '\x0b' || c == '\x0c'

/-- Python str.strip on a character list. -/
def pyStrip (l : List Char) : List Char :=
  ((l.dropWhile isPySpace).reverse.dropWhile isPySpace).reverse

/-- Digit-sequence body of Python int(): digits with single underscores
allowed between digits; acc is the value so far, lastDigit tracks whether
the previous character was a digit. -/
def pyDigitsAux : List Char → Nat → Bool → Option Nat
  | [], acc, true => some acc
  | [], _, false => none
  | c :: rest, acc, lastDigit =>
    if c.isDigit then pyDigitsAux rest (acc * 10 + (c.toNat - 48)) true
    else if c == '_' then
      if lastDigit then pyDigitsAux rest acc false else none
    else none

/-- Nonempty digit sequence with optional single internal underscores. -/
def pyDigits (l : List Char) : Option Nat :=
  pyDigitsAux l 0 false

/-- Python int(s) for a decimal string: strip whitespace, optional sign,
then digits (ASCII digits; the embedding does not model non-ASCII digit
forms, which the repository never feeds to int()). -/
def pyIntOfString (s : String) : Option Int :=
  match pyStrip s.data with
  | '+' :: rest => (pyDigits rest).map Int.ofNat
  | '-' :: rest => (pyDigits rest).map (fun n => -(n : Int))
  | l => (pyDigits l).map Int.ofNat

/-- Python value.split(c, maxsplit=1) when the separator occurs: the part
before the first separator and the part after it; none when the separator
is absent (so unpacking into two names raises). -/
def splitOnceAux (c : Char) : List Char → Option (List Char × List Char)
  | [] => none
  | x :: rest =>
    if x == c then some ([], rest)
    else match splitOnceAux c rest with
      | some (a, b) => some (x :: a, b)
      | none => none

/-- splitOnceAux lifted to strings. -/
def splitOnce (c : Char) (s : String) : Option (String × String) :=
  match splitOnceAux c s.data with
  | some (a, b) => some (⟨a⟩, ⟨b⟩)
  | none => none

/-- Python format spec 02d on a natural number. -/
def fmt02d (n : Nat) : String :=
  if n < 10 then "0" ++ Nat.repr n else Nat.repr n

/-! ## Datetime model

A Python naive datetime is modelled as a day index (days since an epoch
whose day 0 is a Monday, so weekday = day mod 7) and the microsecond of
day.  datetime.date() equality is day equality; comparisons are
lexicographic. -/

/-- Microseconds in a day. -/
def usecPerDay : Nat := 86400000000

structure PyDateTime where
  day : Nat
  usec : Nat
deriving DecidableEq, Repr

/-- Lexicographic datetime order, non-strict. -/
def dtLeb (a b : PyDateTime) : Bool :=
  a.day < b.day || (a.day == b.day && a.usec ≤ b.usec)

/-- Lexicographic datetime order, strict. -/
def dtLtb (a b : PyDateTime) : Bool :=
  a.day < b.day || (a.day == b.day && a.usec < b.usec)

/-- Adding a timedelta of u microseconds, carrying into the day. -/
def dtAddUsec (d : PyDateTime) (u : Nat) : PyDateTime :=
  { day := d.day + (d.usec + u) / usecPerDay, usec := (d.usec + u) % usecPerDay }

/-- Canonical weekday names, indexed by Python weekday() (0 = Monday);
source: DAY_NAME_MAP values. -/
def DAY_CANON : List String := ["Mon", "Tue", "Wed", "Thu", "Fri", "Sat", "Sun"]

/-- DAY_NAME_MAP[list(DAY_NAME_MAP.keys())[now.weekday()]] from should_run. -/
def weekdayCanon (d : PyDateTime) : String :=
  DAY_CANON.getD (d.day % 7) ""

/-! ## Schedule model (validated ScheduleModel / ScheduleStep) -/

/-- ScheduleStep: pin plus duration minutes (validated 1..720). -/
structure SchedStep where
  pin : Nat
  duration : Int
deriving DecidableEq, Repr

/-- ScheduleModel after pydantic validation: duration optional, start_time
the stored (normalized) string, days the canonical-name list. -/
structure ScheduleModel where
  id : String
  duration : Option Int
  start_time : String
  days : List String
  is_enabled : Bool
  sequence : List SchedStep
deriving DecidableEq, Repr

/-- ScheduleModel.validate_start_time: split on the first colon, int() both
parts, require 0 <= hour < 24 and 0 <= minute < 60, return the zero-padded
normal form; none models a raised ValueError. -/
def validate_start_time (value : String) : Option String :=
  match splitOnce ':' value with
  | none => none
  | some (hs, ms) =>
    match pyIntOfString hs, pyIntOfString ms with
    | some hour, some minute =>
      if 0 ≤ hour ∧ hour < 24 ∧ 0 ≤ minute ∧ minute < 60 then
        some (fmt02d hour.toNat ++ ":" ++ fmt02d minute.toNat)
      else none
    | _, _ => none

/-- The hour and minute read back from a stored start_time, as in
start_datetime_on (split on first colon, int() each part). -/
def parseStartTime (s : String) : Option (Int × Int) :=
  match splitOnce ':' s with
  | none => none
  | some (hs, ms) =>
    match pyIntOfString hs, pyIntOfString ms with
    | some h, some m => some (h, m)
    | _, _ => none

/-- ScheduleModel.start_datetime_on: target date at the schedule start
time, seconds and microseconds zeroed; none models a raised exception
(unparseable stored string or datetime.replace out of range). -/
def start_datetime_on (s : ScheduleModel) (target : PyDateTime) : Option PyDateTime :=
  match parseStartTime s.start_time with
  | none => none
  | some (h, m) =>
    if 0 ≤ h ∧ h < 24 ∧ 0 ≤ m ∧ m < 60 then
      some { day := target.day, usec := (h.toNat * 3600 + m.toNat * 60) * 1000000 }
    else none

/-- ScheduleModel.should_run: the due test evaluated by the dispatch loop.
some b is the returned boolean; none models a raised exception from
start_datetime_on. -/
def should_run (s : ScheduleModel) (now : PyDateTime) (last_run : Option PyDateTime) :
    Option Bool :=
  if !s.is_enabled then some false
  else if s.days.isEmpty then some false
  else if !(s.days.contains (weekdayCanon now)) then some false
  else
    match start_datetime_on s now with
    | none => none
    | some run_at =>
      if !(dtLeb run_at now && dtLtb now (dtAddUsec run_at 60000000)) then some false
      else if (match last_run with
               | some lr => lr.day == now.day
               | none => false) then some false
      else some true

/-! ## Service state

The module-level mutable state of sprinkler_service.py: the GPIO pin levels
(energized booleans, write 0 = ON modelled as true), the _active_jobs dict,
the _rain_lock_until timestamp, plus the set of timer tasks created with
asyncio.create_task.  Zones, minutes and times are Int (Python ints;
seconds since an epoch for times). -/

/-- DEFAULT_GPIO_PINS, the configured pin list with no environment
overrides. -/
def GPIO_PINS : List Nat := [12, 16, 20, 21, 26, 19, 13, 6, 5, 11, 9, 10, 22, 27, 17, 4]

/-- The source field of a ZoneJob. -/
inductive Source where
  | manual
  | schedule (id : String)
deriving DecidableEq, Repr

/-- Lifecycle phase of a _zone_timer task: created but not yet run by the
event loop, sleeping (pin energized, awaiting expiry), cancelled, done
(expired naturally), or failed (body raised before the try block). -/
inductive Phase where
  | notStarted
  | sleeping
  | cancelled
  | done
  | failed
deriving DecidableEq, Repr

/-- An asyncio task running _zone_timer(zone, minutes, source); wake is the
absolute time its sleep elapses, set when the body starts. -/
structure TimerTask where
  tid : Nat
  zone : Int
  minutes : Int
  source : Source
  phase : Phase
  wake : Int
deriving DecidableEq, Repr

/-- An _active_jobs entry: the owning task, the scheduled end time and the
source. -/
structure Job where
  tid : Nat
  endsAt : Int
  source : Source
deriving DecidableEq, Repr

/-- The process state. -/
structure St where
  pins : List (Nat × Bool)
  jobs : List (Int × Job)
  rainUntil : Option Int
  tasks : List TimerTask
  nextTid : Nat
  now : Int
deriving DecidableEq, Repr

/-- Python dict lookup in _active_jobs. -/
def dictGet (k : Int) (l : List (Int × Job)) : Option Job :=
  (l.find? (fun p => p.1 == k)).map (fun p => p.2)

/-- Python dict.pop(k, None). -/
def dictPop (k : Int) (l : List (Int × Job)) : List (Int × Job) :=
  l.filter (fun p => p.1 != k)

/-- Python dict assignment d[k] = v. -/
def dictSet (k : Int) (v : Job) (l : List (Int × Job)) : List (Int × Job) :=
  dictPop k l ++ [(k, v)]

/-- pi.read(gpio) == 0 on a pin table, i.e. the energized bit of a pin. -/
def pinReadL (gpio : Nat) (pins : List (Nat × Bool)) : Bool :=
  ((pins.find? (fun p => p.1 == gpio)).map (fun p => p.2)).getD false

/-- pi.read(gpio) == 0, i.e. the energized bit of a pin. -/
def pinRead (gpio : Nat) (st : St) : Bool :=
  pinReadL gpio st.pins

/-- pi.write(gpio, level): level 0 energizes (b = true), level 1
de-energizes (b = false). -/
def pinWrite (gpio : Nat) (b : Bool) (pins : List (Nat × Bool)) : List (Nat × Bool) :=
  pins.map (fun p => if p.1 == gpio then (p.1, b) else p)

/-- Startup state: every configured pin written OFF, no jobs, no rain lock,
no tasks. -/
def initSt : St :=
  { pins := GPIO_PINS.map (fun g => (g, false)), jobs := [], rainUntil := none,
    tasks := [], nextTid := 0, now := 0 }

/-- _gpio_for_zone: GPIO_PINS[zone - 1] under Python indexing; none models
the raised HTTPException(400, zone out of range). -/
def gpio_for_zone (P : List Nat) (zone : Int) : Option Nat :=
  pyIndex P (zone - 1)

/-- _zone_for_pin: GPIO_PINS.index(pin) + 1; none models the raised
HTTPException(404, pin not managed). -/
def zone_for_pin (P : List Nat) (pin : Nat) : Option Int :=
  (P.indexOf? pin).map (fun i => (i : Int) + 1)

/-- The rain-lock test used throughout the source:
_rain_lock_until and utcnow() < _rain_lock_until. -/
def rainActiveb (st : St) : Bool :=
  match st.rainUntil with
  | some u => st.now < u
  | none => false

/-- Error outcomes of the modelled operations.  cancelledError is the
asyncio.CancelledError re-raised by awaiting a task that was cancelled: it
derives from BaseException since Python 3.8, so the except Exception
guards in the source do not catch it and it escapes the endpoint. -/
inductive Err where
  | invalidDuration
  | rainLockActive
  | zoneBusy
  | invalidZone
  | validationError
  | cancelledError
deriving DecidableEq, Repr

/-- Update the phase (and wake) of the task with the given id. -/
def setTask (tid : Nat) (f : TimerTask → TimerTask) (tasks : List TimerTask) :
    List TimerTask :=
  tasks.map (fun t => if t.tid == tid then f t else t)

/-- task.cancel() followed by await task inside try/except Exception, as
in _start_zone_internal and stop_zone.  The returned flag records whether
the await re-raised asyncio.CancelledError into the caller: it does
whenever the task had not finished, because CancelledError derives from
BaseException since Python 3.8 and except Exception does not catch it.  A
sleeping timer still runs its finally block first (de-energize the pin,
pop the job keyed by its own zone) and ends cancelled; a task that never
started ends cancelled without running its body; a finished task is left
alone (task.done() is true, the source skips the cancel and nothing is
raised). -/
def cancelTaskRun (P : List Nat) (tid : Nat) (st : St) : St × Bool :=
  match st.tasks.find? (fun t => t.tid == tid) with
  | none => (st, false)
  | some t =>
    match t.phase with
    | Phase.sleeping =>
      let pins :=
        match gpio_for_zone P t.zone with
        | some g => pinWrite g false st.pins
        | none => st.pins
      ({ st with pins := pins, jobs := dictPop t.zone st.jobs,
                 tasks := setTask tid (fun u => { u with phase := Phase.cancelled }) st.tasks },
       true)
    | Phase.notStarted =>
      ({ st with tasks := setTask tid (fun u => { u with phase := Phase.cancelled }) st.tasks },
       true)
    | _ => (st, false)

/-- The tail of _start_zone_internal once any existing job is resolved:
compute the end time, create the timer task and record the ZoneJob. -/
def recordFreshJob (zone minutes : Int) (source : Source) (st : St) :
    St × Except Err Int :=
  let endsAt := st.now + minutes * 60
  let t : TimerTask :=
    { tid := st.nextTid, zone := zone, minutes := minutes, source := source,
      phase := Phase.notStarted, wake := 0 }
  ({ st with
     tasks := st.tasks ++ [t],
     jobs := dictSet zone { tid := st.nextTid, endsAt := endsAt, source := source } st.jobs,
     nextTid := st.nextTid + 1 }, Except.ok endsAt)

/-- _start_zone_internal without wait: validate the duration, gate on the
rain lock, resolve an existing job (ZoneBusy when cancelExisting is false;
otherwise cancel-and-await it - if the task was live the await re-raises
CancelledError, so the pop and the fresh job record below it never run),
then record the new ZoneJob and create the timer task.  ValueError,
RainLockActiveError and ZoneBusyError are raised before any mutation, so
the state is returned unchanged alongside them. -/
def start_zone_internal (P : List Nat) (zone minutes : Int) (source : Source)
    (cancelExisting : Bool) (st : St) : St × Except Err Int :=
  if minutes ≤ 0 then (st, Except.error Err.invalidDuration)
  else if rainActiveb st then (st, Except.error Err.rainLockActive)
  else
    match dictGet zone st.jobs with
    | some job =>
      if !cancelExisting then (st, Except.error Err.zoneBusy)
      else
        match cancelTaskRun P job.tid st with
        | (st1, true) => (st1, Except.error Err.cancelledError)
        | (st1, false) => recordFreshJob zone minutes source { st1 with jobs := dictPop zone st1.jobs }
    | none => recordFreshJob zone minutes source st

/-- The event loop running a created _zone_timer task for the first time:
resolve the gpio (an unmapped zone raises before the try block, so no
cleanup ever runs for it), energize the pin and sleep until wake. -/
def taskRunStep (P : List Nat) (tid : Nat) (st : St) : St :=
  match st.tasks.find? (fun t => t.tid == tid) with
  | none => st
  | some t =>
    if t.phase = Phase.notStarted then
      match gpio_for_zone P t.zone with
      | some g =>
        { st with pins := pinWrite g true st.pins,
                  tasks := setTask tid
                    (fun u => { u with phase := Phase.sleeping, wake := st.now + t.minutes * 60 })
                    st.tasks }
      | none =>
        { st with tasks := setTask tid (fun u => { u with phase := Phase.failed }) st.tasks }
    else st

/-- Natural expiry of a sleeping timer once its wake time has passed: the
finally block de-energizes the pin and pops whatever job is recorded under
the timer zone. -/
def taskExpireStep (P : List Nat) (tid : Nat) (st : St) : St :=
  match st.tasks.find? (fun t => t.tid == tid) with
  | none => st
  | some t =>
    if t.phase = Phase.sleeping ∧ t.wake ≤ st.now then
      let pins :=
        match gpio_for_zone P t.zone with
        | some g => pinWrite g false st.pins
        | none => st.pins
      { st with pins := pins, jobs := dictPop t.zone st.jobs,
                tasks := setTask tid (fun u => { u with phase := Phase.done }) st.tasks }
    else st

/-- _turn_zone_off: resolve the gpio (HTTPException for an unmapped zone,
raised before any effect), write it OFF and pop the job. -/
def turn_zone_off (P : List Nat) (zone : Int) (st : St) : St × Except Err Unit :=
  match gpio_for_zone P zone with
  | none => (st, Except.error Err.invalidZone)
  | some g =>
    ({ st with pins := pinWrite g false st.pins, jobs := dictPop zone st.jobs },
     Except.ok ())

/-- The stop_zone endpoint: cancel-and-await the recorded task if any -
when the task was live the await re-raises CancelledError out of the
endpoint (the timer finally has already de-energized the pin and popped
the job) and _turn_zone_off is never reached; otherwise _turn_zone_off
runs. -/
def stop_zone (P : List Nat) (zone : Int) (st : St) : St × Except Err Unit :=
  match dictGet zone st.jobs with
  | some job =>
    match cancelTaskRun P job.tid st with
    | (st1, true) => (st1, Except.error Err.cancelledError)
    | (st1, false) => turn_zone_off P zone st1
  | none => turn_zone_off P zone st

/-- The start_zone endpoint (POST /zone/on/zone): pydantic validates
minutes into 1..720, _start_zone_internal runs with source manual and
cancel_existing true, and the response afterwards resolves the gpio again
(raising InvalidZone only after the internal call already took effect). -/
def start_zone (P : List Nat) (zone minutes : Int) (st : St) : St × Except Err Int :=
  if !(1 ≤ minutes && minutes ≤ 720) then (st, Except.error Err.validationError)
  else
    match start_zone_internal P zone minutes Source.manual true st with
    | (st1, Except.ok endsAt) =>
      match gpio_for_zone P zone with
      | none => (st1, Except.error Err.invalidZone)
      | some _ => (st1, Except.ok endsAt)
    | (st1, Except.error e) => (st1, Except.error e)

/-- The event loop draining its ready queue of already-created, not-yet-
started _zone_timer tasks, in creation order: each energizes its pin and
goes to sleep (or fails on an unmapped zone). -/
def startPending (P : List Nat) : List TimerTask → St → St
  | [], st => st
  | t :: rest, st =>
    if t.phase == Phase.notStarted then startPending P rest (taskRunStep P t.tid st)
    else startPending P rest st

/-- _shutdown_all_zones: capture the zones of _active_jobs, then await a
gather of _turn_zone_off for each (exceptions swallowed by
return_exceptions=True), then clear the dict.  Timer tasks are not
cancelled.  The await suspends the caller, and call_soon runs ready
callbacks in registration order, so every timer task created before the
gather runs its first step (energize, sleep) before the gather children
execute their pin-offs: modelled by startPending before the fold.  With
no jobs there is no gather and no suspension point. -/
def shutdown_all_zones (P : List Nat) (st : St) : St :=
  let zones := st.jobs.map (fun p => p.1)
  if zones.isEmpty then { st with jobs := [] }
  else
    let st1 := startPending P st.tasks st
    let st2 := zones.foldl (fun s z => (turn_zone_off P z s).1) st1
    { st2 with jobs := [] }

/-- The set_rain_lock endpoint (POST /rain-lock): pydantic validates hours
into 1..336, the lock timestamp is overwritten, then _shutdown_all_zones
runs before the response is returned. -/
def set_rain_lock (P : List Nat) (hours : Int) (st : St) : St × Except Err Int :=
  if !(1 ≤ hours && hours ≤ 336) then (st, Except.error Err.validationError)
  else
    let u := st.now + hours * 3600
    let st1 := { st with rainUntil := some u }
    (shutdown_all_zones P st1, Except.ok u)

/-- The clear_rain_lock endpoint (DELETE /rain-lock). -/
def clear_rain_lock (st : St) : St :=
  { st with rainUntil := none }

/-- _pin_snapshot: per configured pin, is_active = (pi.read(gpio) == 0). -/
def pin_snapshot (P : List Nat) (st : St) : List (Nat × Bool) :=
  P.map (fun g => (g, pinRead g st))

/-- The events whose interleavings we examine: the API operations, the
event loop starting a created timer task, a timer expiring, and time
passing. -/
inductive Event where
  | manualStart (zone minutes : Int)
  | stop (zone : Int)
  | engage (hours : Int)
  | clearLock
  | taskRun (tid : Nat)
  | taskExpire (tid : Nat)
  | tick (d : Nat)
deriving DecidableEq, Repr

/-- One atomic step of the system. -/
def stepEv (P : List Nat) (st : St) (e : Event) : St :=
  match e with
  | Event.manualStart z m => (start_zone P z m st).1
  | Event.stop z => (stop_zone P z st).1
  | Event.engage h => (set_rain_lock P h st).1
  | Event.clearLock => clear_rain_lock st
  | Event.taskRun tid => taskRunStep P tid st
  | Event.taskExpire tid => taskExpireStep P tid st
  | Event.tick d => { st with now := st.now + d }

/-- Run a sequence of events from a state. -/
def runEvents (P : List Nat) (es : List Event) (st : St) : St :=
  es.foldl (stepEv P) st

/-! ## Schedule execution (_execute_schedule) -/

/-- Outcome of one schedule run: completed all steps, nothing actionable,
or aborted at a step (invalid pin, ZoneBusy, RainLockActive, or any other
exception); every outcome returns normally, the run never crashes the
dispatch loop. -/
inductive ExecOutcome where
  | completed
  | noAction
  | invalidPin (pin : Nat)
  | zoneBusy
  | rainLock
  | otherError
deriving DecidableEq, Repr

/-- _start_zone_internal with wait=True as awaited by a schedule step: on
success the created timer task is driven to completion (the event loop
starts it, its full sleep elapses, its expiry cleanup runs) before control
returns; the finally block returns the scheduled end time. -/
def start_zone_wait (P : List Nat) (zone minutes : Int) (source : Source)
    (cancelExisting : Bool) (st : St) : St × Except Err Int :=
  match start_zone_internal P zone minutes source cancelExisting st with
  | (st1, Except.ok endsAt) =>
    let tid := st.nextTid
    let st2 := taskRunStep P tid st1
    let st3 := { st2 with now := st2.now + minutes * 60 }
    (taskExpireStep P tid st3, Except.ok endsAt)
  | (st1, Except.error e) => (st1, Except.error e)

/-- The per-step loop of _execute_schedule: resolve the zone for the pin
(unmapped pin aborts the remaining steps), then start the zone with source
schedule:id and cancel_existing False, waiting for the timer to elapse;
ZoneBusy, RainLockActive and any other exception abort the remaining
steps. -/
def execSteps (P : List Nat) (sid : String) : List SchedStep → St → St × ExecOutcome
  | [], st => (st, ExecOutcome.completed)
  | s :: rest, st =>
    match zone_for_pin P s.pin with
    | none => (st, ExecOutcome.invalidPin s.pin)
    | some z =>
      match start_zone_wait P z s.duration (Source.schedule sid) false st with
      | (st1, Except.ok _) => execSteps P sid rest st1
      | (st1, Except.error Err.zoneBusy) => (st1, ExecOutcome.zoneBusy)
      | (st1, Except.error Err.rainLockActive) => (st1, ExecOutcome.rainLock)
      | (st1, Except.error _) => (st1, ExecOutcome.otherError)

/-- _execute_schedule: resolve the step list (the explicit sequence, else a
single synthetic step on the first configured pin from the flat duration,
else nothing actionable) and run the steps. -/
def execute_schedule (P : List Nat) (s : ScheduleModel) (st : St) : St × ExecOutcome :=
  if s.sequence ≠ [] then execSteps P s.id s.sequence st
  else
    match s.duration with
    | some d =>
      if d ≠ 0 then
        match P.head? with
        | some p => execSteps P s.id [{ pin := p, duration := d }] st
        | none => (st, ExecOutcome.otherError)
      else (st, ExecOutcome.noAction)
    | none => (st, ExecOutcome.noAction)

/-! ## Spec-side definitions and concrete scenario data -/

/-- Strict HH:MM form as the spec words it: exactly two digits, a colon,
two digits, hour 00-23, minute 00-59.  Written from the spec sentence, to
be compared with validate_start_time. -/
def isStrictHHMM (s : String) : Bool :=
  match s.data with
  | [h1, h2, c, m1, m2] =>
    h1.isDigit && h2.isDigit && (c == ':') && m1.isDigit && m2.isDigit &&
    decide ((h1.toNat - 48) * 10 + (h2.toNat - 48) < 24) &&
    decide ((m1.toNat - 48) * 10 + (m2.toNat - 48) < 60)
  | _ => false

deriving instance DecidableEq for Except

/-- A state with the rain lock engaged (until 100, now 0) and nothing
running. -/
def stLocked : St :=
  { initSt with rainUntil := some 100 }

/-- A state in which zone 1 is running a five-minute manual job whose
timer task has started. -/
def stRunning : St :=
  runEvents GPIO_PINS [Event.manualStart 1 5, Event.taskRun 0] initSt

/-- Interleaving for claim C1: start zone 1, let its timer begin, engage
the rain lock (which clears the job but not the task), clear the lock,
start zone 1 again and let the new timer begin. -/
def c1trace : List Event :=
  [Event.manualStart 1 5, Event.taskRun 0, Event.engage 1,
   Event.clearLock, Event.manualStart 1 5, Event.taskRun 1]

/-- Interleaving for claim C4, first part: zone 1 running, rain lock
engaged. -/
def c4traceEngage : List Event :=
  [Event.manualStart 1 5, Event.taskRun 0, Event.engage 1]

/-- Interleaving for claim C4, second part: after the engage, the lock is
cleared, zone 1 is started again, and the silenced timer of the first run
expires, running its cleanup against the newer job. -/
def c4traceAfter : List Event :=
  c4traceEngage ++
  [Event.clearLock, Event.manualStart 1 7, Event.taskRun 1,
   Event.tick 300, Event.taskExpire 0]

/-- A state in which zone 1 is running a ten-minute schedule-driven job
whose timer task has started. -/
def stSchedBusy : St :=
  taskRunStep GPIO_PINS 0
    (start_zone_internal GPIO_PINS 1 10 (Source.schedule "B") false initSt).1

/-- Schedule used as the C5 witness: 06:00 on Mondays. -/
def schedMonA : ScheduleModel :=
  { id := "A", duration := none, start_time := "06:00", days := ["Mon"],
    is_enabled := true, sequence := [] }

/-- A Monday 06:00:30 instant (day 7 is a Monday; 21630000000 microseconds
into the day). -/
def nowMon : PyDateTime := { day := 7, usec := 21630000000 }

/-! ## Helper lemmas about the dict, pin and task primitives -/

theorem list_map_id_on {α : Type} (f : α → α) :
    ∀ l : List α, (∀ x ∈ l, f x = x) → l.map f = l := by
  intro l
  induction l with
  | nil => intro _; rfl
  | cons a t ih =>
    intro h
    simp only [List.map_cons]
    rw [h a (List.mem_cons_self a t), ih (fun x hx => h x (List.mem_cons_of_mem a hx))]

theorem find?_append_none {α : Type} (p : α → Bool) :
    ∀ {l₁ : List α} (l₂ : List α), l₁.find? p = none → (l₁ ++ l₂).find? p = l₂.find? p := by
  intro l₁
  induction l₁ with
  | nil => intro l₂ _; rfl
  | cons a t ih =>
    intro l₂ h
    by_cases hp : p a
    · simp [List.find?, hp] at h
    · simp only [List.cons_append, List.find?, hp]
      simp only [List.find?, hp] at h
      exact ih l₂ h

theorem dictGet_dictPop (z : Int) (l : List (Int × Job)) :
    dictGet z (dictPop z l) = none := by
  have h : (dictPop z l).find? (fun p => p.1 == z) = none := by
    apply List.find?_eq_none.mpr
    intro x hx
    have := List.of_mem_filter hx
    simp only [bne_iff_ne, ne_eq] at this
    simp [this]
  simp [dictGet, h]

theorem dictGet_dictSet (z : Int) (v : Job) (l : List (Int × Job)) :
    dictGet z (dictSet z v l) = some v := by
  have h : (dictPop z l).find? (fun p => p.1 == z) = none := by
    apply List.find?_eq_none.mpr
    intro x hx
    have := List.of_mem_filter hx
    simp only [bne_iff_ne, ne_eq] at this
    simp [this]
  simp [dictGet, dictSet, find?_append_none _ _ h, List.find?]

theorem dictPop_dictSet (z : Int) (v : Job) (l : List (Int × Job)) :
    dictPop z (dictSet z v l) = dictPop z l := by
  simp [dictPop, dictSet, List.filter_append, List.filter_filter]

theorem find?_pinWrite_false (g : Nat) (pins : List (Nat × Bool)) :
    ((((pinWrite g false pins).find? (fun p => p.1 == g)).map (fun p => p.2)).getD false)
      = false := by
  induction pins with
  | nil => rfl
  | cons p t ih =>
    simp only [pinWrite, List.map_cons] at ih ⊢
    by_cases hp : p.1 = g
    · simp [List.find?, hp]
    · rw [if_neg (show ¬((p.1 == g) = true) by simp [hp]),
        List.find?_cons_of_neg _ (by simp [hp])]
      exact ih

theorem pinRead_pinWrite_false (g : Nat) (st : St) (pins : List (Nat × Bool))
    (h : st.pins = pinWrite g false pins) : pinRead g st = false := by
  unfold pinRead
  rw [h]
  exact find?_pinWrite_false g pins

theorem cancelTaskRun_preserves (P : List Nat) (tid : Nat) (st : St) :
    (cancelTaskRun P tid st).1.now = st.now ∧
    (cancelTaskRun P tid st).1.nextTid = st.nextTid ∧
    (cancelTaskRun P tid st).1.rainUntil = st.rainUntil := by
  unfold cancelTaskRun
  cases h : st.tasks.find? (fun t => t.tid == tid) with
  | none => exact ⟨rfl, rfl, rfl⟩
  | some t =>
    obtain ⟨a, b, c, d, ph, w⟩ := t
    cases ph <;> exact ⟨rfl, rfl, rfl⟩

theorem pinReadL_write_self (g : Nat) (l : List (Nat × Bool)) :
    pinReadL g (pinWrite g false l) = false :=
  find?_pinWrite_false g l

theorem pinReadL_write_other {g g0 : Nat} (h : g ≠ g0) (b : Bool)
    (l : List (Nat × Bool)) : pinReadL g (pinWrite g0 b l) = pinReadL g l := by
  unfold pinReadL pinWrite
  induction l with
  | nil => rfl
  | cons p t ih =>
    by_cases hp : p.1 = g0
    · rw [List.map_cons, if_pos (by simp [hp])]
      rw [List.find?_cons_of_neg _ (by simp [hp, Ne.symm h]),
        List.find?_cons_of_neg _ (by simp [hp, Ne.symm h])]
      exact ih
    · rw [List.map_cons, if_neg (by simp [hp])]
      by_cases hq : p.1 = g
      · rw [List.find?_cons_of_pos _ (by simp [hq]),
          List.find?_cons_of_pos _ (by simp [hq])]
      · rw [List.find?_cons_of_neg _ (by simp [hq]),
          List.find?_cons_of_neg _ (by simp [hq])]
        exact ih

theorem pinReadL_write_false_mono {g g0 : Nat} {l : List (Nat × Bool)}
    (h : pinReadL g (pinWrite g0 false l) = true) : pinReadL g l = true := by
  by_cases hgg : g = g0
  · subst hgg
    rw [pinReadL_write_self] at h
    exact Bool.noConfusion h
  · rw [pinReadL_write_other hgg] at h
    exact h

theorem pinReadL_write_true_origin {g g0 : Nat} {l : List (Nat × Bool)}
    (h : pinReadL g (pinWrite g0 true l) = true) :
    g = g0 ∨ pinReadL g l = true := by
  by_cases hgg : g = g0
  · exact Or.inl hgg
  · rw [pinReadL_write_other hgg] at h
    exact Or.inr h

theorem turn_zone_off_mono {P : List Nat} {z : Int} {s : St} {g : Nat}
    (h : pinReadL g ((turn_zone_off P z s).1).pins = true) :
    pinReadL g s.pins = true := by
  unfold turn_zone_off at h
  cases hz : gpio_for_zone P z with
  | none => rw [hz] at h; exact h
  | some g0 =>
    rw [hz] at h
    exact pinReadL_write_false_mono h

theorem turn_zone_off_hit {P : List Nat} {z : Int} {s : St} {g : Nat}
    (hz : gpio_for_zone P z = some g) :
    pinReadL g ((turn_zone_off P z s).1).pins = false := by
  unfold turn_zone_off
  rw [hz]
  exact pinReadL_write_self g _

theorem foldl_turnoff_mono (P : List Nat) (g : Nat) :
    ∀ (zs : List Int) (s : St),
      pinReadL g ((zs.foldl (fun s z => (turn_zone_off P z s).1) s)).pins = true →
      pinReadL g s.pins = true := by
  intro zs
  induction zs with
  | nil => intro s h; exact h
  | cons z rest ih =>
    intro s h
    exact turn_zone_off_mono (ih _ h)

theorem foldl_turnoff_false (P : List Nat) (g : Nat) :
    ∀ (zs : List Int) (s : St),
      pinReadL g s.pins = false →
      pinReadL g ((zs.foldl (fun s z => (turn_zone_off P z s).1) s)).pins = false := by
  intro zs
  induction zs with
  | nil => intro s h; exact h
  | cons z rest ih =>
    intro s h
    apply ih
    cases hr : pinReadL g ((turn_zone_off P z s).1).pins with
    | false => rfl
    | true => rw [turn_zone_off_mono hr] at h; exact Bool.noConfusion h

theorem foldl_turnoff_hit (P : List Nat) (g : Nat) :
    ∀ (zs : List Int) (s : St) (z : Int), z ∈ zs → gpio_for_zone P z = some g →
      pinReadL g ((zs.foldl (fun s z => (turn_zone_off P z s).1) s)).pins = false := by
  intro zs
  induction zs with
  | nil => intro s z hz _; exact absurd hz (List.not_mem_nil z)
  | cons z0 rest ih =>
    intro s z hz hg
    rcases List.mem_cons.mp hz with h0 | h0
    · subst h0
      exact foldl_turnoff_false P g rest _ (turn_zone_off_hit hg)
    · exact ih _ z h0 hg

theorem taskRunStep_origin (P : List Nat) (st0 : St) (tid : Nat) (s : St)
    (h1 : ∀ g, pinReadL g s.pins = true → pinReadL g st0.pins = true ∨
       ∃ t0 ∈ st0.tasks, t0.phase = Phase.notStarted ∧ gpio_for_zone P t0.zone = some g)
    (h2 : ∀ u ∈ s.tasks, ∃ u0 ∈ st0.tasks, u.zone = u0.zone ∧
       (u.phase = Phase.notStarted → u0.phase = Phase.notStarted))
    (h3 : s.jobs = st0.jobs) :
    (∀ g, pinReadL g (taskRunStep P tid s).pins = true → pinReadL g st0.pins = true ∨
       ∃ t0 ∈ st0.tasks, t0.phase = Phase.notStarted ∧ gpio_for_zone P t0.zone = some g)
    ∧ (∀ u ∈ (taskRunStep P tid s).tasks, ∃ u0 ∈ st0.tasks, u.zone = u0.zone ∧
       (u.phase = Phase.notStarted → u0.phase = Phase.notStarted))
    ∧ (taskRunStep P tid s).jobs = st0.jobs := by
  unfold taskRunStep
  cases hf : s.tasks.find? (fun t => t.tid == tid) with
  | none => exact ⟨h1, h2, h3⟩
  | some t =>
    have htmem : t ∈ s.tasks := List.mem_of_find?_eq_some hf
    dsimp only
    by_cases hph : t.phase = Phase.notStarted
    · rw [if_pos hph]
      cases hg : gpio_for_zone P t.zone with
      | some g0 =>
        dsimp only
        refine ⟨?_, ?_, h3⟩
        · intro g hr
          rcases pinReadL_write_true_origin hr with hgg | hold
          · subst hgg
            obtain ⟨u0, hu0, hzone, hns⟩ := h2 t htmem
            exact Or.inr ⟨u0, hu0, hns hph, by rw [← hzone]; exact hg⟩
          · exact h1 g hold
        · intro u hu
          rcases List.mem_map.mp hu with ⟨v, hv, hveq⟩
          obtain ⟨u0, hu0, hzone, hns⟩ := h2 v hv
          by_cases hvt : (v.tid == tid) = true
          · refine ⟨u0, hu0, ?_, ?_⟩
            · rw [← hveq]
              simp [hvt, hzone]
            · intro hu'
              rw [← hveq] at hu'
              simp [hvt] at hu'
          · refine ⟨u0, hu0, ?_, ?_⟩
            · rw [← hveq]
              simp [hvt, hzone]
            · intro hu'
              rw [← hveq] at hu'
              simp [hvt] at hu'
              exact hns hu'
      | none =>
        dsimp only
        refine ⟨h1, ?_, h3⟩
        · intro u hu
          rcases List.mem_map.mp hu with ⟨v, hv, hveq⟩
          obtain ⟨u0, hu0, hzone, hns⟩ := h2 v hv
          by_cases hvt : (v.tid == tid) = true
          · refine ⟨u0, hu0, ?_, ?_⟩
            · rw [← hveq]
              simp [hvt, hzone]
            · intro hu'
              rw [← hveq] at hu'
              simp [hvt] at hu'
          · refine ⟨u0, hu0, ?_, ?_⟩
            · rw [← hveq]
              simp [hvt, hzone]
            · intro hu'
              rw [← hveq] at hu'
              simp [hvt] at hu'
              exact hns hu'
    · rw [if_neg hph]
      exact ⟨h1, h2, h3⟩

theorem startPending_origin (P : List Nat) (st0 : St) :
    ∀ (l : List TimerTask) (s : St),
    (∀ g, pinReadL g s.pins = true → pinReadL g st0.pins = true ∨
       ∃ t0 ∈ st0.tasks, t0.phase = Phase.notStarted ∧ gpio_for_zone P t0.zone = some g) →
    (∀ u ∈ s.tasks, ∃ u0 ∈ st0.tasks, u.zone = u0.zone ∧
       (u.phase = Phase.notStarted → u0.phase = Phase.notStarted)) →
    s.jobs = st0.jobs →
    (∀ g, pinReadL g (startPending P l s).pins = true → pinReadL g st0.pins = true ∨
       ∃ t0 ∈ st0.tasks, t0.phase = Phase.notStarted ∧ gpio_for_zone P t0.zone = some g)
    ∧ (startPending P l s).jobs = st0.jobs := by
  intro l
  induction l with
  | nil => intro s h1 h2 h3; exact ⟨h1, h3⟩
  | cons t rest ih =>
    intro s h1 h2 h3
    by_cases hp : (t.phase == Phase.notStarted) = true
    · rw [startPending, if_pos hp]
      obtain ⟨g1, g2, g3⟩ := taskRunStep_origin P st0 t.tid s h1 h2 h3
      exact ih _ g1 g2 g3
    · rw [startPending, if_neg hp]
      exact ih s h1 h2 h3

/-! ## Claim theorems -/

/-- C1: the claim fails on the code.  In the reachable interleaving
c1trace (start zone 1, timer begins, rain lock engaged - which clears the
job table but cancels no task - lock cleared, zone 1 started again, new
timer begins) two in-flight zone-timer tasks are simultaneously sleeping
for zone 1, both owning its pin: each will de-energize it and pop whatever
job is then recorded when it expires.  At most one ZoneJob record exists
per zone (the dict is keyed by zone), but the single-owner invariant the
claim states is violated. -/
theorem c1_two_timer_tasks_own_zone1_pin :
    ((runEvents GPIO_PINS c1trace initSt).tasks.filter
      (fun t => t.zone == 1 && t.phase == Phase.sleeping)).length = 2 := by
  decide

/-- C3: immediately after engage returns, every configured zone reads
de-energized and no ZoneJob remains recorded, for any prior state
satisfying the reachability invariants: every energized configured pin
belongs to a recorded job (hpins) and every created-but-not-yet-started
timer task has its job still recorded (hpend).  The event loop runs
ready callbacks in registration order, so the shutdown gather children
de-energize the pins only after every pending timer task has taken its
first step - modelled inside shutdown_all_zones - hence no timer can
re-energize a pin after engage returns. -/
theorem c3_engage_all_zones_off (P : List Nat) (hours : Int) (st : St)
    (hh1 : 1 ≤ hours) (hh2 : hours ≤ 336)
    (hpins : ∀ g ∈ P, pinRead g st = true →
       ∃ z ∈ st.jobs.map (fun p => p.1), gpio_for_zone P z = some g)
    (hpend : ∀ t ∈ st.tasks, t.phase = Phase.notStarted →
       t.zone ∈ st.jobs.map (fun p => p.1)) :
    (set_rain_lock P hours st).2 = Except.ok (st.now + hours * 3600) ∧
    (set_rain_lock P hours st).1.jobs = [] ∧
    (∀ g ∈ P, pinRead g (set_rain_lock P hours st).1 = false) ∧
    pin_snapshot P (set_rain_lock P hours st).1 = P.map (fun g => (g, false)) := by
  have hv : ¬((!(decide (1 ≤ hours) && decide (hours ≤ 336))) = true) := by
    simp
    omega
  have hmain : set_rain_lock P hours st
      = (shutdown_all_zones P { st with rainUntil := some (st.now + hours * 3600) },
         Except.ok (st.now + hours * 3600)) := by
    unfold set_rain_lock
    rw [if_neg hv]
  have hall : ∀ g ∈ P, pinRead g (set_rain_lock P hours st).1 = false := by
    intro g hg
    rw [hmain]
    by_cases hemp : ((st.jobs.map (fun p => p.1)).isEmpty = true)
    · have hsd : shutdown_all_zones P { st with rainUntil := some (st.now + hours * 3600) }
          = { st with rainUntil := some (st.now + hours * 3600), jobs := [] } := by
        unfold shutdown_all_zones
        rw [if_pos hemp]
      rw [hsd]
      cases hr : pinRead g st with
      | false => exact hr
      | true =>
        exfalso
        obtain ⟨z, hzmem, hzg⟩ := hpins g hg hr
        rw [List.isEmpty_iff.mp hemp] at hzmem
        exact absurd hzmem (List.not_mem_nil z)
    · have hsd : shutdown_all_zones P { st with rainUntil := some (st.now + hours * 3600) }
        = { ((st.jobs.map (fun p => p.1)).foldl (fun s z => (turn_zone_off P z s).1) (startPending P st.tasks { st with rainUntil := some (st.now + hours * 3600) })) with jobs := [] } := by
        unfold shutdown_all_zones
        rw [if_neg hemp]
      rw [hsd]
      have hbase := startPending_origin P
        { st with rainUntil := some (st.now + hours * 3600) } st.tasks
        { st with rainUntil := some (st.now + hours * 3600) }
        (fun g hgr => Or.inl hgr)
        (fun u hu => ⟨u, hu, rfl, fun h => h⟩)
        rfl
      cases hr : pinRead g { ((st.jobs.map (fun p => p.1)).foldl (fun s z => (turn_zone_off P z s).1) (startPending P st.tasks { st with rainUntil := some (st.now + hours * 3600) })) with jobs := [] } with
      | false => rfl
      | true =>
        exfalso
        have hr' : pinReadL g (((st.jobs.map (fun p => p.1)).foldl (fun s z => (turn_zone_off P z s).1) (startPending P st.tasks { st with rainUntil := some (st.now + hours * 3600) })).pins) = true := hr
        have hup := foldl_turnoff_mono P g (st.jobs.map (fun p => p.1))
          (startPending P st.tasks { st with rainUntil := some (st.now + hours * 3600) }) hr'
        rcases hbase.1 g hup with hstR | ⟨t0, ht0, hns, hgp⟩
        · obtain ⟨z, hzmem, hzg⟩ := hpins g hg hstR
          have hoff := foldl_turnoff_hit P g (st.jobs.map (fun p => p.1))
            (startPending P st.tasks { st with rainUntil := some (st.now + hours * 3600) })
            z hzmem hzg
          rw [hr'] at hoff
          exact Bool.noConfusion hoff
        · have hzmem := hpend t0 ht0 hns
          have hoff := foldl_turnoff_hit P g (st.jobs.map (fun p => p.1))
            (startPending P st.tasks { st with rainUntil := some (st.now + hours * 3600) })
            t0.zone hzmem hgp
          rw [hr'] at hoff
          exact Bool.noConfusion hoff
  refine ⟨by rw [hmain], ?_, hall, ?_⟩
  · rw [hmain]
    unfold shutdown_all_zones
    by_cases hemp : ((st.jobs.map (fun p => p.1)).isEmpty = true)
    · rw [if_pos hemp]
    · rw [if_neg hemp]
  · unfold pin_snapshot
    apply List.map_congr_left
    intro g hg
    rw [hall g hg]

/-- C3 witness: the theorem applied with hours 2 in the concrete state
stRunning where zone 1 is energized and running. -/
theorem c3_engage_witness :
    (1 ≤ (2 : Int) ∧ (2 : Int) ≤ 336 ∧
     (∀ g ∈ GPIO_PINS, pinRead g stRunning = true →
        ∃ z ∈ stRunning.jobs.map (fun p => p.1), gpio_for_zone GPIO_PINS z = some g) ∧
     (∀ t ∈ stRunning.tasks, t.phase = Phase.notStarted →
        t.zone ∈ stRunning.jobs.map (fun p => p.1))) ∧
    ((set_rain_lock GPIO_PINS 2 stRunning).2
       = Except.ok (stRunning.now + 2 * 3600) ∧
     (set_rain_lock GPIO_PINS 2 stRunning).1.jobs = [] ∧
     (∀ g ∈ GPIO_PINS, pinRead g (set_rain_lock GPIO_PINS 2 stRunning).1 = false) ∧
     pin_snapshot GPIO_PINS (set_rain_lock GPIO_PINS 2 stRunning).1
       = GPIO_PINS.map (fun g => (g, false))) :=
  ⟨⟨by decide, by decide, by decide, by decide⟩,
   c3_engage_all_zones_off GPIO_PINS 2 stRunning (by decide) (by decide)
     (by decide) (by decide)⟩

/-- C4: the claim fails on the code.  After c4traceEngage (zone 1 running,
rain lock engaged) the engage has returned but the zone-1 timer task is
still sleeping: _shutdown_all_zones never cancels tasks, unlike stop_zone.
In the continuation c4traceAfter the lock is cleared, zone 1 is restarted,
and the silenced timer expires: its expiry action fires after the engage
returned and pops the job of the newer run while the newer timer is still
sleeping. -/
theorem c4_shutdown_leaves_timer_uncancelled :
    (((runEvents GPIO_PINS c4traceEngage initSt).tasks.find?
        (fun t => t.tid == 0)).map (fun t => t.phase)) = some Phase.sleeping ∧
    (((runEvents GPIO_PINS c4traceAfter initSt).tasks.find?
        (fun t => t.tid == 0)).map (fun t => t.phase)) = some Phase.done ∧
    dictGet 1 (runEvents GPIO_PINS c4traceAfter initSt).jobs = none ∧
    (((runEvents GPIO_PINS c4traceAfter initSt).tasks.find?
        (fun t => t.tid == 1)).map (fun t => t.phase)) = some Phase.sleeping := by
  decide

/-- C6: the claim fails on the code.  Zone 0 is outside 1..16, yet the
start-zone operation succeeds (Python negative indexing maps zone 0 to the
last configured pin, gpio 4): it returns the scheduled end time, records a
ZoneJob under key 0 and the timer task energizes pin 4.  Zone 17 does fail
with InvalidZone, but only after a ZoneJob has been recorded for it; the
job survives because the failed timer task dies before its cleanup block. -/
theorem c6_unmapped_zone_partial_effects :
    (start_zone GPIO_PINS 0 5 initSt).2 = Except.ok 300 ∧
    dictGet 0 (taskRunStep GPIO_PINS 0 (start_zone GPIO_PINS 0 5 initSt).1).jobs
      = some { tid := 0, endsAt := 300, source := Source.manual } ∧
    pinRead 4 (taskRunStep GPIO_PINS 0 (start_zone GPIO_PINS 0 5 initSt).1) = true ∧
    (start_zone GPIO_PINS 17 5 initSt).2 = Except.error Err.invalidZone ∧
    dictGet 17 (taskRunStep GPIO_PINS 0 (start_zone GPIO_PINS 17 5 initSt).1).jobs
      = some { tid := 0, endsAt := 300, source := Source.manual } := by
  decide

/-- C2 counterexample: with the rain lock active (stLocked) and minutes 0,
_start_zone_internal raises ValueError (InvalidDuration) - the duration
check precedes the rain-lock check - not RainLockActive as the claim
states for non-positive minutes. -/
theorem c2_nonpositive_minutes_not_rain_locked :
    (start_zone_internal GPIO_PINS 1 0 Source.manual true stLocked).2
      = Except.error Err.invalidDuration ∧
    Err.invalidDuration ≠ Err.rainLockActive := by
  decide

/-- C9 counterexample: the string 7:5 is not in strict HH:MM form, yet
validate_start_time accepts it (normalizing to 07:05), so validation does
not accept exactly the strict HH:MM strings. -/
theorem c9_accepts_nonstrict_input :
    validate_start_time "7:5" = some "07:05" ∧ isStrictHHMM "7:5" = false := by
  decide

/-- C2 (amended): for every positive minutes argument, every zone, source
and cancelExisting flag, starting a zone while the rain lock is active
(until set and now < until) fails with RainLockActive and leaves the state
completely unchanged - no pin write, no ZoneJob bookkeeping.  Non-positive
minutes instead fail with InvalidDuration before the rain lock is
consulted. -/
theorem c2_rain_lock_rejects_start_unchanged (P : List Nat) (zone minutes : Int)
    (source : Source) (cancelExisting : Bool) (st : St)
    (hm : 1 ≤ minutes) (hr : rainActiveb st = true) :
    start_zone_internal P zone minutes source cancelExisting st
      = (st, Except.error Err.rainLockActive) := by
  unfold start_zone_internal
  rw [if_neg (by omega), if_pos hr]

/-- C2 witness: the amended theorem applied at zone 1, 5 minutes, in the
concrete rain-locked state stLocked. -/
theorem c2_rain_lock_witness :
    (1 ≤ (5 : Int) ∧ rainActiveb stLocked = true) ∧
    start_zone_internal GPIO_PINS 1 5 Source.manual true stLocked
      = (stLocked, Except.error Err.rainLockActive) :=
  ⟨⟨by decide, by decide⟩,
   c2_rain_lock_rejects_start_unchanged GPIO_PINS 1 5 Source.manual true stLocked
     (by decide) (by decide)⟩

theorem internal_never_busy (P : List Nat) (z m : Int) (src : Source) (st : St) :
    (start_zone_internal P z m src true st).2 ≠ Except.error Err.zoneBusy := by
  unfold start_zone_internal
  by_cases h1 : m ≤ 0
  · simp [h1]
  · rw [if_neg h1]
    by_cases h2 : rainActiveb st
    · simp [h2]
    · simp only [h2, if_false]
      cases hj : dictGet z st.jobs with
      | none => simp [recordFreshJob]
      | some job =>
        rcases hc : cancelTaskRun P job.tid st with ⟨st1, b⟩
        cases b <;> simp [hc, recordFreshJob]

/-- C10 counterexample: in stSchedBusy, where a schedule-driven job is
running on zone 1, the manual start does not take the zone over.  The
endpoint cancels the running timer, but awaiting the cancelled task
re-raises asyncio.CancelledError, which except Exception does not catch on
Python 3.8+, so the request dies before _active_jobs is re-populated: no
manual ZoneJob is recorded.  The failure is indeed not ZoneBusy. -/
theorem c10_manual_start_dies_on_busy_zone :
    (start_zone GPIO_PINS 1 5 stSchedBusy).2 = Except.error Err.cancelledError ∧
    dictGet 1 (start_zone GPIO_PINS 1 5 stSchedBusy).1.jobs = none ∧
    (start_zone GPIO_PINS 1 5 stSchedBusy).2 ≠ Except.error Err.zoneBusy := by
  decide

/-- C10 (amended): the manual endpoint fixes cancelExisting to true, so it
never fails with ZoneBusy for any pin list, zone, minutes and state; on a
zone with no recorded job (validation passing, rain lock inactive) it
installs the fresh manual ZoneJob; but on a zone with a live running job
it does not take over: the running timer is cancelled - its cleanup
de-energizes the pin and clears the ZoneJob - and the endpoint then fails
with the uncaught CancelledError re-raised by the await, leaving no
ZoneJob recorded and no manual job installed. -/
theorem c10_manual_start_preempts :
    (∀ (P : List Nat) (z m : Int) (st : St),
      (start_zone P z m st).2 ≠ Except.error Err.zoneBusy)
    ∧ (∀ (P : List Nat) (z m : Int) (st : St),
        1 ≤ m → m ≤ 720 → rainActiveb st = false → dictGet z st.jobs = none →
        dictGet z (start_zone P z m st).1.jobs
          = some { tid := st.nextTid, endsAt := st.now + m * 60, source := Source.manual })
    ∧ (∀ (P : List Nat) (z m : Int) (st : St) (g : Nat) (j : Job) (t : TimerTask),
        1 ≤ m → m ≤ 720 → rainActiveb st = false →
        gpio_for_zone P z = some g →
        dictGet z st.jobs = some j →
        st.tasks.find? (fun u => u.tid == j.tid) = some t →
        t.phase = Phase.sleeping → t.zone = z →
        (start_zone P z m st).2 = Except.error Err.cancelledError ∧
        dictGet z (start_zone P z m st).1.jobs = none ∧
        pinRead g (start_zone P z m st).1 = false) := by
  refine ⟨?_, ?_, ?_⟩
  · intro P z m st
    unfold start_zone
    split
    · simp
    · cases hr : start_zone_internal P z m Source.manual true st with
      | mk st1 r =>
        cases r with
        | ok e =>
          dsimp only
          cases hg : gpio_for_zone P z <;> simp
        | error e =>
          dsimp only
          intro hcon
          apply internal_never_busy P z m Source.manual st
          rw [hr]
          simpa using hcon
  · intro P z m st hm1 hm2 hrain hnone
    unfold start_zone
    split
    · rename_i hcond
      exfalso
      simp at hcond
      omega
    unfold start_zone_internal
    rw [if_neg (by omega), if_neg (by simp [hrain]), hnone]
    unfold recordFreshJob
    dsimp only
    cases hg : gpio_for_zone P z <;> simp [dictGet_dictSet]
  · intro P z m st g j t hm1 hm2 hrain hg hj hf hph hzz
    unfold start_zone
    split
    · rename_i hcond
      exfalso
      simp at hcond
      omega
    unfold start_zone_internal
    rw [if_neg (by omega), if_neg (by simp [hrain]), hj]
    dsimp only
    rw [if_neg (show ¬((!true) = true) by decide)]
    unfold cancelTaskRun
    rw [hf]
    dsimp only
    rw [hph]
    dsimp only
    rw [hzz, hg]
    dsimp only
    exact ⟨rfl, dictGet_dictPop z _, pinRead_pinWrite_false g _ _ rfl⟩

/-- C10 witness: the fresh-job conjunct applied at zone 1 in the startup
state, and the live-job conjunct applied at zone 1, 5 minutes, in the
concrete state stSchedBusy where a schedule-driven job is running. -/
theorem c10_manual_start_witness :
    (1 ≤ (5 : Int) ∧ (5 : Int) ≤ 720 ∧ rainActiveb initSt = false ∧
     dictGet 1 initSt.jobs = none ∧
     rainActiveb stSchedBusy = false ∧ gpio_for_zone GPIO_PINS 1 = some 12 ∧
     dictGet 1 stSchedBusy.jobs = some ⟨0, 600, Source.schedule "B"⟩ ∧
     stSchedBusy.tasks.find? (fun u => u.tid == (0 : Nat))
       = some ⟨0, 1, 10, Source.schedule "B", Phase.sleeping, 600⟩) ∧
    dictGet 1 (start_zone GPIO_PINS 1 5 initSt).1.jobs
      = some { tid := initSt.nextTid, endsAt := initSt.now + 5 * 60,
               source := Source.manual } ∧
    ((start_zone GPIO_PINS 1 5 stSchedBusy).2 = Except.error Err.cancelledError ∧
     dictGet 1 (start_zone GPIO_PINS 1 5 stSchedBusy).1.jobs = none ∧
     pinRead 12 (start_zone GPIO_PINS 1 5 stSchedBusy).1 = false) :=
  ⟨⟨by decide, by decide, by decide, by decide, by decide, by decide, by decide,
    by decide⟩,
   c10_manual_start_preempts.2.1 GPIO_PINS 1 5 initSt
     (by decide) (by decide) (by decide) (by decide),
   c10_manual_start_preempts.2.2 GPIO_PINS 1 5 stSchedBusy 12
     ⟨0, 600, Source.schedule "B"⟩ ⟨0, 1, 10, Source.schedule "B", Phase.sleeping, 600⟩
     (by decide) (by decide) (by decide) (by decide) (by decide) (by decide)
     (by decide) (by decide)⟩

/-- C5: should_run returns true exactly when the schedule is enabled, the
weekday of now is among its days (so an empty days set never runs, the
membership being vacuously false), now lies in the half-open one-minute
window starting at the date of now at the stored start time, and lastRun
is absent or falls on a different date.  The hypotheses say the stored
start_time parses back to an in-range hour and minute, which validation
guarantees. -/
theorem c5_should_run_iff (s : ScheduleModel) (now : PyDateTime)
    (lastRun : Option PyDateTime) (h m : Int)
    (hp : parseStartTime s.start_time = some (h, m))
    (hh0 : 0 ≤ h) (hh1 : h < 24) (hm0 : 0 ≤ m) (hm1 : m < 60) :
    (should_run s now lastRun = some true ↔
      (s.is_enabled = true ∧
       s.days.contains (weekdayCanon now) = true ∧
       dtLeb { day := now.day, usec := (h.toNat * 3600 + m.toNat * 60) * 1000000 } now
         = true ∧
       dtLtb now
         (dtAddUsec { day := now.day, usec := (h.toNat * 3600 + m.toNat * 60) * 1000000 }
           60000000) = true ∧
       (lastRun = none ∨ ∃ lr, lastRun = some lr ∧ lr.day ≠ now.day))) := by
  unfold should_run start_datetime_on
  rw [hp]
  dsimp only
  rw [if_pos (show (0 ≤ h ∧ h < 24 ∧ 0 ≤ m ∧ m < 60) from ⟨hh0, hh1, hm0, hm1⟩)]
  dsimp only
  set ra : PyDateTime :=
    { day := now.day, usec := (h.toNat * 3600 + m.toNat * 60) * 1000000 } with hra
  split_ifs with h1 h2 h3 h4 h5
  · have he : s.is_enabled = false := by revert h1; cases s.is_enabled <;> simp
    simp [he]
  · have hnil : s.days = [] := by
      revert h2
      cases s.days <;> simp [List.isEmpty]
    simp [hnil]
  · constructor
    · intro hcon
      exact absurd hcon (by simp)
    · rintro ⟨-, hcontains, -, -, -⟩
      rw [Bool.not_eq_true'] at h3
      rw [hcontains] at h3
      exact Bool.noConfusion h3
  · constructor
    · intro hcon
      exact absurd hcon (by simp)
    · rintro ⟨-, -, hle, hlt, -⟩
      rw [Bool.not_eq_true', Bool.and_eq_false_iff] at h4
      rcases h4 with h4 | h4
      · rw [hle] at h4; exact Bool.noConfusion h4
      · rw [hlt] at h4; exact Bool.noConfusion h4
  · constructor
    · intro hcon
      exact absurd hcon (by simp)
    · rintro ⟨-, -, -, -, hlr⟩
      cases lastRun with
      | none => simp at h5
      | some lr =>
        rcases hlr with hnone | ⟨lr', heq, hne⟩
        · exact Option.noConfusion hnone
        · injection heq with heq'
          subst heq'
          exact (hne (by simpa using h5)).elim
  · constructor
    · intro _
      have he : s.is_enabled = true := by revert h1; cases s.is_enabled <;> simp
      have hc : s.days.contains (weekdayCanon now) = true := by
        revert h3; cases s.days.contains (weekdayCanon now) <;> simp
      have hw : (dtLeb ra now && dtLtb now (dtAddUsec ra 60000000)) = true := by
        revert h4
        cases hx : (dtLeb ra now && dtLtb now (dtAddUsec ra 60000000)) <;> simp
      rw [Bool.and_eq_true] at hw
      refine ⟨he, hc, hw.1, hw.2, ?_⟩
      cases lastRun with
      | none => exact Or.inl rfl
      | some lr =>
        refine Or.inr ⟨lr, rfl, ?_⟩
        intro hdq
        exact h5 (by simpa using hdq)
    · intro _
      rfl

/-- C5 witness: the theorem applied to schedMonA at nowMon, a Monday
06:00:30, with no prior run. -/
theorem c5_should_run_witness :
    (parseStartTime schedMonA.start_time = some (6, 0) ∧
     (0 : Int) ≤ 6 ∧ (6 : Int) < 24 ∧ (0 : Int) ≤ 0 ∧ (0 : Int) < 60) ∧
    (should_run schedMonA nowMon none = some true ↔
      (schedMonA.is_enabled = true ∧
       schedMonA.days.contains (weekdayCanon nowMon) = true ∧
       dtLeb { day := nowMon.day,
               usec := ((6 : Int).toNat * 3600 + (0 : Int).toNat * 60) * 1000000 } nowMon
         = true ∧
       dtLtb nowMon
         (dtAddUsec
           { day := nowMon.day,
             usec := ((6 : Int).toNat * 3600 + (0 : Int).toNat * 60) * 1000000 }
           60000000) = true ∧
       ((none : Option PyDateTime) = none ∨
        ∃ lr, (none : Option PyDateTime) = some lr ∧ lr.day ≠ nowMon.day))) :=
  ⟨⟨by decide, by decide, by decide, by decide, by decide⟩,
   c5_should_run_iff schedMonA nowMon none 6 0 (by decide) (by decide) (by decide)
     (by decide) (by decide)⟩

set_option maxHeartbeats 2000000 in
theorem strict_fmt_all : ∀ h < 24, ∀ m < 60,
    isStrictHHMM (fmt02d h ++ ":" ++ fmt02d m) = true ∧
    validate_start_time (fmt02d h ++ ":" ++ fmt02d m)
      = some (fmt02d h ++ ":" ++ fmt02d m) := by
  decide

/-- C9: corrected.  Every accepted start time is stored zero-padded in
strict HH:MM normal form and is a fixed point of validation, and every
strict in-range HH:MM string is accepted unchanged; but acceptance is
broader than strict HH:MM (see the counterexample 7:5), extending to any
colon-split pair accepted by Python int() with in-range values. -/
theorem c9_validate_normalized :
    (∀ s t : String, validate_start_time s = some t →
      isStrictHHMM t = true ∧ validate_start_time t = some t)
    ∧ (∀ h m : Nat, h < 24 → m < 60 →
        validate_start_time (fmt02d h ++ ":" ++ fmt02d m)
          = some (fmt02d h ++ ":" ++ fmt02d m)) := by
  constructor
  · intro s t hv
    unfold validate_start_time at hv
    cases hsp : splitOnce ':' s with
    | none => rw [hsp] at hv; exact Option.noConfusion hv
    | some pr =>
      obtain ⟨hs, ms⟩ := pr
      rw [hsp] at hv
      dsimp only at hv
      cases hh : pyIntOfString hs with
      | none => rw [hh] at hv; exact Option.noConfusion hv
      | some hour =>
        cases hm : pyIntOfString ms with
        | none => rw [hh, hm] at hv; exact Option.noConfusion hv
        | some minute =>
          rw [hh, hm] at hv
          dsimp only at hv
          by_cases hb : (0 ≤ hour ∧ hour < 24 ∧ 0 ≤ minute ∧ minute < 60)
          · rw [if_pos hb] at hv
            injection hv with hv'
            subst hv'
            have h1 : hour.toNat < 24 := by omega
            have h2 : minute.toNat < 60 := by omega
            exact strict_fmt_all hour.toNat h1 minute.toNat h2
          · rw [if_neg hb] at hv
            exact Option.noConfusion hv
  · intro h m h1 h2
    exact (strict_fmt_all h h1 m h2).2

/-- C9 witness: the normalization conjunct applied to the accepted
non-strict string 6:3 and the acceptance conjunct applied at hour 6,
minute 3. -/
theorem c9_validate_witness :
    (validate_start_time "6:3" = some "06:03") ∧
    (isStrictHHMM "06:03" = true ∧ validate_start_time "06:03" = some "06:03") ∧
    ((6 : Nat) < 24 ∧ (3 : Nat) < 60 ∧
     validate_start_time (fmt02d 6 ++ ":" ++ fmt02d 3)
       = some (fmt02d 6 ++ ":" ++ fmt02d 3)) :=
  ⟨by decide, c9_validate_normalized.1 "6:3" "06:03" (by decide),
   by decide, by decide, c9_validate_normalized.2 6 3 (by decide) (by decide)⟩

theorem indexOf?_get? {pin : Nat} :
    ∀ {P : List Nat} {i : Nat}, P.indexOf? pin = some i → P.get? i = some pin := by
  intro P
  induction P with
  | nil => intro i h; simp at h
  | cons p rest ih =>
    intro i h
    rw [List.indexOf?_cons] at h
    by_cases hp : (p == pin) = true
    · rw [if_pos hp] at h
      injection h with h'
      subst h'
      simp [List.get?]
      exact beq_iff_eq.mp hp
    · rw [if_neg hp] at h
      cases hj : rest.indexOf? pin with
      | none => rw [hj] at h; exact absurd h (by simp)
      | some j =>
        rw [hj] at h
        simp only [Option.map_some'] at h
        injection h with h'
        subst h'
        exact ih hj

theorem gpio_of_zone_for_pin {P : List Nat} {pin : Nat} {z : Int}
    (h : zone_for_pin P pin = some z) : gpio_for_zone P z = some pin := by
  unfold zone_for_pin at h
  cases hi : P.indexOf? pin with
  | none => rw [hi] at h; exact Option.noConfusion h
  | some i =>
    rw [hi] at h
    have h2 : ((i : Int) + 1) = z := by simpa using h
    subst h2
    unfold gpio_for_zone pyIndex
    rw [if_pos (by omega : (0:Int) ≤ (i : Int) + 1 - 1)]
    have hx : ((i : Int) + 1 - 1).toNat = i := by omega
    rw [hx]
    exact indexOf?_get? hi

theorem exec_steps_invalid_pin (P : List Nat) (sid : String) (s : SchedStep) (rest : List SchedStep)
    (st : St) (hz : zone_for_pin P s.pin = none) :
    execSteps P sid (s :: rest) st = (st, ExecOutcome.invalidPin s.pin) := by
  simp [execSteps, hz]

theorem exec_steps_rain_abort (P : List Nat) (sid : String) (s : SchedStep) (rest : List SchedStep)
    (st : St) (z : Int) (hz : zone_for_pin P s.pin = some z) (hd : 1 ≤ s.duration)
    (hr : rainActiveb st = true) :
    execSteps P sid (s :: rest) st = (st, ExecOutcome.rainLock) := by
  have hint : start_zone_internal P z s.duration (Source.schedule sid) false st
      = (st, Except.error Err.rainLockActive) := by
    unfold start_zone_internal
    rw [if_neg (by omega), if_pos hr]
  have hw : start_zone_wait P z s.duration (Source.schedule sid) false st
      = (st, Except.error Err.rainLockActive) := by
    unfold start_zone_wait
    rw [hint]
  simp [execSteps, hz, hw]

theorem exec_steps_busy_abort (P : List Nat) (sid : String) (s : SchedStep) (rest : List SchedStep)
    (st : St) (z : Int) (j : Job) (hz : zone_for_pin P s.pin = some z)
    (hd : 1 ≤ s.duration) (hr : rainActiveb st = false)
    (hj : dictGet z st.jobs = some j) :
    execSteps P sid (s :: rest) st = (st, ExecOutcome.zoneBusy) := by
  have hint : start_zone_internal P z s.duration (Source.schedule sid) false st
      = (st, Except.error Err.zoneBusy) := by
    unfold start_zone_internal
    rw [if_neg (by omega), if_neg (by simp [hr]), hj]
    simp
  have hw : start_zone_wait P z s.duration (Source.schedule sid) false st
      = (st, Except.error Err.zoneBusy) := by
    unfold start_zone_wait
    rw [hint]
  simp [execSteps, hz, hw]

theorem exec_steps_success_step (P : List Nat) (sid : String) (s : SchedStep) (rest : List SchedStep)
    (st : St) (z : Int) (hz : zone_for_pin P s.pin = some z) (hd : 1 ≤ s.duration)
    (hr : rainActiveb st = false) (hnone : dictGet z st.jobs = none)
    (hfresh : ∀ t ∈ st.tasks, t.tid ≠ st.nextTid) :
    ∃ st' : St, execSteps P sid (s :: rest) st = execSteps P sid rest st' ∧
      st'.now = st.now + s.duration * 60 ∧
      dictGet z st'.jobs = none ∧
      pinRead s.pin st' = false ∧
      st'.tasks = st.tasks ++
        [⟨st.nextTid, z, s.duration, Source.schedule sid, Phase.done,
          st.now + s.duration * 60⟩] := by
  have hgpio : gpio_for_zone P z = some s.pin := gpio_of_zone_for_pin hz
  have hfindnone : st.tasks.find? (fun t => t.tid == st.nextTid) = none := by
    apply List.find?_eq_none.mpr
    intro t ht
    simp [hfresh t ht]
  have hfind : ∀ T : TimerTask, T.tid = st.nextTid →
      (st.tasks ++ [T]).find? (fun t => t.tid == st.nextTid) = some T := by
    intro T hT
    rw [find?_append_none _ _ hfindnone]
    simp [List.find?, hT]
  have hset : ∀ T : TimerTask, T.tid = st.nextTid → ∀ f : TimerTask → TimerTask,
      setTask st.nextTid f (st.tasks ++ [T]) = st.tasks ++ [f T] := by
    intro T hT f
    unfold setTask
    rw [List.map_append]
    congr 1
    · apply list_map_id_on
      intro u hu
      rw [if_neg (by simp [hfresh u hu])]
    · simp [hT]
  have hint : start_zone_internal P z s.duration (Source.schedule sid) false st
      = ({ st with tasks := st.tasks ++ [⟨st.nextTid, z, s.duration, Source.schedule sid, Phase.notStarted, 0⟩], jobs := dictSet z ⟨st.nextTid, st.now + s.duration * 60, Source.schedule sid⟩ st.jobs, nextTid := st.nextTid + 1 }, Except.ok (st.now + s.duration * 60)) := by
    unfold start_zone_internal
    rw [if_neg (by omega), if_neg (by simp [hr]), hnone]
    dsimp only
    unfold recordFreshJob
    rfl
  have hrun : taskRunStep P st.nextTid
      ({ st with tasks := st.tasks ++ [⟨st.nextTid, z, s.duration, Source.schedule sid, Phase.notStarted, 0⟩], jobs := dictSet z ⟨st.nextTid, st.now + s.duration * 60, Source.schedule sid⟩ st.jobs, nextTid := st.nextTid + 1 })
      = { st with pins := pinWrite s.pin true st.pins, tasks := st.tasks ++ [⟨st.nextTid, z, s.duration, Source.schedule sid, Phase.sleeping, st.now + s.duration * 60⟩], jobs := dictSet z ⟨st.nextTid, st.now + s.duration * 60, Source.schedule sid⟩ st.jobs, nextTid := st.nextTid + 1 } := by
    unfold taskRunStep
    dsimp only
    rw [hfind _ rfl]
    dsimp only
    rw [if_pos rfl, hgpio]
    dsimp only
    rw [hset _ rfl]
  have hexp : taskExpireStep P st.nextTid
      ({ st with pins := pinWrite s.pin true st.pins, tasks := st.tasks ++ [⟨st.nextTid, z, s.duration, Source.schedule sid, Phase.sleeping, st.now + s.duration * 60⟩], jobs := dictSet z ⟨st.nextTid, st.now + s.duration * 60, Source.schedule sid⟩ st.jobs, nextTid := st.nextTid + 1, now := st.now + s.duration * 60 })
      = { st with pins := pinWrite s.pin false (pinWrite s.pin true st.pins), tasks := st.tasks ++ [⟨st.nextTid, z, s.duration, Source.schedule sid, Phase.done, st.now + s.duration * 60⟩], jobs := dictPop z st.jobs, nextTid := st.nextTid + 1, now := st.now + s.duration * 60 } := by
    unfold taskExpireStep
    dsimp only
    rw [hfind _ rfl]
    dsimp only
    rw [if_pos ⟨rfl, le_refl _⟩, hgpio]
    dsimp only
    rw [hset _ rfl]
    rw [dictPop_dictSet]
  refine ⟨{ st with pins := pinWrite s.pin false (pinWrite s.pin true st.pins), tasks := st.tasks ++ [⟨st.nextTid, z, s.duration, Source.schedule sid, Phase.done, st.now + s.duration * 60⟩], jobs := dictPop z st.jobs, nextTid := st.nextTid + 1, now := st.now + s.duration * 60 }, ?_, rfl, dictGet_dictPop z _, pinRead_pinWrite_false _ _ _ rfl, rfl⟩
  simp only [execSteps]
  rw [hz]
  dsimp only
  have hwait : start_zone_wait P z s.duration (Source.schedule sid) false st
      = ({ st with pins := pinWrite s.pin false (pinWrite s.pin true st.pins), tasks := st.tasks ++ [⟨st.nextTid, z, s.duration, Source.schedule sid, Phase.done, st.now + s.duration * 60⟩], jobs := dictPop z st.jobs, nextTid := st.nextTid + 1, now := st.now + s.duration * 60 }, Except.ok (st.now + s.duration * 60)) := by
    unfold start_zone_wait
    rw [hint]
    dsimp only
    rw [hrun]
    dsimp only
    rw [hexp]
  rw [hwait]

/-- C8: schedule steps run strictly sequentially with cancelExisting false
and source schedule:id, and abort immediately, with no retry and no state
change from the failing call, when a step pin is unmapped, the zone is
busy, or the rain lock is active; a successful step fully elapses (time
advances by its whole duration, the pin ends de-energized, the job is
cleared, the timer task ends done) before the remaining steps run.  The
run function is total, so no failure escapes to the dispatch loop. -/
theorem c8_schedule_steps_sequential :
    (∀ (P : List Nat) (sid : String) (s : SchedStep) (rest : List SchedStep)
       (st : St), zone_for_pin P s.pin = none →
       execSteps P sid (s :: rest) st = (st, ExecOutcome.invalidPin s.pin))
    ∧ (∀ (P : List Nat) (sid : String) (s : SchedStep) (rest : List SchedStep)
        (st : St) (z : Int), zone_for_pin P s.pin = some z → 1 ≤ s.duration →
        rainActiveb st = true →
        execSteps P sid (s :: rest) st = (st, ExecOutcome.rainLock))
    ∧ (∀ (P : List Nat) (sid : String) (s : SchedStep) (rest : List SchedStep)
        (st : St) (z : Int) (j : Job), zone_for_pin P s.pin = some z →
        1 ≤ s.duration → rainActiveb st = false → dictGet z st.jobs = some j →
        execSteps P sid (s :: rest) st = (st, ExecOutcome.zoneBusy))
    ∧ (∀ (P : List Nat) (sid : String) (s : SchedStep) (rest : List SchedStep)
        (st : St) (z : Int), zone_for_pin P s.pin = some z → 1 ≤ s.duration →
        rainActiveb st = false → dictGet z st.jobs = none →
        (∀ t ∈ st.tasks, t.tid ≠ st.nextTid) →
        ∃ st' : St, execSteps P sid (s :: rest) st = execSteps P sid rest st' ∧
          st'.now = st.now + s.duration * 60 ∧
          dictGet z st'.jobs = none ∧
          pinRead s.pin st' = false ∧
          st'.tasks = st.tasks ++
            [⟨st.nextTid, z, s.duration, Source.schedule sid, Phase.done,
              st.now + s.duration * 60⟩]) :=
  ⟨exec_steps_invalid_pin, exec_steps_rain_abort, exec_steps_busy_abort,
   exec_steps_success_step⟩

/-- C8 witness: the busy-abort conjunct applied to a two-step schedule in
stRunning (zone 1 manually busy), and the successful-step conjunct applied
in the startup state. -/
theorem c8_schedule_steps_witness :
    (zone_for_pin GPIO_PINS 12 = some 1 ∧ 1 ≤ ((⟨12, 10⟩ : SchedStep)).duration ∧
     rainActiveb stRunning = false ∧
     dictGet 1 stRunning.jobs = some ⟨0, 300, Source.manual⟩ ∧
     execSteps GPIO_PINS "B" [⟨12, 10⟩, ⟨16, 5⟩] stRunning
       = (stRunning, ExecOutcome.zoneBusy)) ∧
    (rainActiveb initSt = false ∧ dictGet 1 initSt.jobs = none ∧
     (∀ t ∈ initSt.tasks, t.tid ≠ initSt.nextTid) ∧
     ∃ st' : St,
       execSteps GPIO_PINS "B" [⟨12, 10⟩, ⟨16, 5⟩] initSt
         = execSteps GPIO_PINS "B" [⟨16, 5⟩] st' ∧
       st'.now = initSt.now + (⟨12, 10⟩ : SchedStep).duration * 60 ∧
       dictGet 1 st'.jobs = none ∧
       pinRead (⟨12, 10⟩ : SchedStep).pin st' = false ∧
       st'.tasks = initSt.tasks ++
         [⟨initSt.nextTid, 1, (⟨12, 10⟩ : SchedStep).duration,
           Source.schedule "B", Phase.done,
           initSt.now + (⟨12, 10⟩ : SchedStep).duration * 60⟩]) :=
  ⟨⟨by decide, by decide, by decide, by decide,
    c8_schedule_steps_sequential.2.2.1 GPIO_PINS "B" ⟨12, 10⟩ [⟨16, 5⟩] stRunning 1
      ⟨0, 300, Source.manual⟩ (by decide) (by decide) (by decide) (by decide)⟩,
   ⟨by decide, by decide, by decide,
    c8_schedule_steps_sequential.2.2.2 GPIO_PINS "B" ⟨12, 10⟩ [⟨16, 5⟩] initSt 1
      (by decide) (by decide) (by decide) (by decide) (by decide)⟩⟩

end Sprinkler
